import Mathlib

/-!
Verification of the enrichment-engine frontend against its specification.

The repository ships two React frontends for the same workflow engine:
a single-page builder (frontend/src, with api.ts as part_000) and a
routed multi-page app (parts 001..005 plus pages/WorkflowBuilderPage.tsx,
JobDetailPage, components/BlockCard.tsx).  The definitions below are a
shallow embedding of the functions and render conditions these files
contain; the backend Job Store is not part of the sources, so its read
and cancel operations are modelled from the specification where a claim
needs them (each such definition is marked `Modelled from the spec:`).
-/

-- ── JS string trim ─────────────────────────────────────────────────────────

/-- The JS `String.prototype.trim()`: strip leading and trailing
whitespace. Embedded structurally over the character list so that it
evaluates on concrete inputs. -/
def jsTrim (s : String) : String :=
  String.mk (((s.data.dropWhile Char.isWhitespace).reverse.dropWhile
    Char.isWhitespace).reverse)

-- ── Job status (types.ts line 24 / api/types JobStatus) ────────────────────

inductive JobStatus
  | pending
  | running
  | completed
  | failed
  | cancelled
deriving DecidableEq, Repr

/-- `job.status === 'running' || job.status === 'pending'` — the `isActive`
expression used by JobCard (part_003 line 35), JobDetailPage (part_004
line 85), both refetchInterval callbacks and the App.tsx poll condition. -/
def isActive (s : JobStatus) : Bool :=
  s == JobStatus.running || s == JobStatus.pending

-- ── JobProgress (frontend/src/types.ts) ────────────────────────────────────

/-- BlockResult from types.ts; the `sample_data` field carries opaque JSON
rows and is omitted from the embedding. -/
structure BlockResult where
  block_id : String
  block_type : String
  rows_affected : Option Int
  output_path : Option String
  error : Option String
deriving DecidableEq, Repr

structure JobProgress where
  job_id : String
  status : JobStatus
  current_block_index : Nat
  total_blocks : Nat
  blocks_completed : List BlockResult
  error : Option String
deriving DecidableEq, Repr

-- ── getJobProgress (src/unnamed/part_000 lines 42..46) ─────────────────────

/-- The fetch response as getJobProgress sees it: the ok flag and the result
of `res.json()`, which either parses to a JobProgress or rejects. -/
structure HttpResponse where
  ok : Bool
  json : Except String JobProgress

/-- `if (!res.ok) return null; return res.json()` -/
def getJobProgress (res : HttpResponse) : Except String (Option JobProgress) :=
  if !res.ok then Except.ok none
  else res.json.map some

-- ── App.tsx poll loop (lines 29..36) ───────────────────────────────────────

/-- The rescheduling condition of the App.tsx poll:
`progress?.status === 'running' || progress?.status === 'pending'`.
A null progress (failed or unknown job id) never reschedules. -/
def pollSchedulesNext (progress : Option JobProgress) : Bool :=
  match progress with
  | some p => p.status == JobStatus.running || p.status == JobStatus.pending
  | none => false

/-- State of the App.tsx polling client: the fetch results observed so far
and whether another `setTimeout(poll, 1500)` is pending. -/
structure PollTrace where
  observed : List (Option JobProgress)
  scheduled : Bool
deriving DecidableEq

/-- The first call of `poll()` (made unconditionally after run). -/
def pollStart (first : Option JobProgress) : PollTrace :=
  { observed := [first], scheduled := pollSchedulesNext first }

/-- One timer tick: if a poll was scheduled it observes the next fetch
result and reschedules per `pollSchedulesNext`; otherwise nothing runs. -/
def pollStep (t : PollTrace) (next : Option JobProgress) : PollTrace :=
  if t.scheduled then
    { observed := t.observed ++ [next], scheduled := pollSchedulesNext next }
  else t

/-- The trace of the poll loop after `n` timer ticks, reading successive
fetch results from `stream`. -/
def pollRun (stream : Nat → Option JobProgress) : Nat → PollTrace
  | 0 => pollStart (stream 0)
  | n + 1 => pollStep (pollRun stream n) (stream (n + 1))

-- ── Job (multi-page app, api/types) ────────────────────────────────────────

structure Job where
  id : String
  workflow_id : String
  status : JobStatus
  total_blocks : Nat
  completed_blocks : Nat
  current_block_id : Option String
  failed_block_id : Option String
  block_states : List (String × String)
  created_at : String
  started_at : Option String
  finished_at : Option String
  error_message : Option String
deriving DecidableEq

/-- JobsPage refetchInterval (part_003 lines 163..167):
`hasActive = jobs?.some(j => running || pending); hasActive ? 2000 : false`. -/
def jobsRefetchInterval (data : Option (List Job)) : Option Nat :=
  match data with
  | some jobs => if jobs.any (fun j => isActive j.status) then some 2000 else none
  | none => none

/-- JobDetailPage refetchInterval (part_004 lines 54..57):
`j?.status === 'running' || j?.status === 'pending' ? 2000 : false`. -/
def jobDetailRefetchInterval (data : Option Job) : Option Nat :=
  match data with
  | some j => if isActive j.status then some 2000 else none
  | none => none

-- ── Cancel / rerun affordances (part_003, part_004) ────────────────────────

/-- JobCard (part_003 line 112): the Cancel button is rendered iff
`isActive`. -/
def jobCardCancelShown (job : Job) : Bool := isActive job.status

/-- JobCard (part_003 line 122): the Rerun button is rendered iff
`!isActive`. -/
def jobCardRerunShown (job : Job) : Bool := !(isActive job.status)

/-- JobDetailPage (part_004 line 113): the Cancel button is rendered iff
`isActive`. -/
def jobDetailCancelShown (job : Job) : Bool := isActive job.status

-- ── Job Store (spec-modelled backend) ──────────────────────────────────────

/-- Modelled from the spec: a Job Store record — the Job snapshot plus the
cooperative-cancellation flag of section 4.3 (the flag itself is not part
of the progress snapshot served to clients). -/
structure StoredJob where
  progress : JobProgress
  cancelRequested : Bool
deriving DecidableEq

/-- Modelled from the spec: the in-memory Job Store, keyed by job id. -/
def JobStore : Type := List (String × StoredJob)

/-- Modelled from the spec: `get(job_id) -> Job | not-found` served over
HTTP — a known job answers ok with its snapshot, an unknown one answers a
non-ok not-found response; a read never mutates the store. -/
def storeGet (st : JobStore) (jobId : String) : HttpResponse × JobStore :=
  match List.lookup jobId st with
  | some j => ({ ok := true, json := Except.ok j.progress }, st)
  | none => ({ ok := false, json := Except.error "Job not found" }, st)

inductive CancelResult
  | ok
  | notFound
  | notCancellable
deriving DecidableEq

/-- Modelled from the spec: `request_cancel(job_id) -> ok | not-found |
not-cancellable` — only a pending or running Job is cancellable; a
cancellable Job gets its flag set, a terminal Job is rejected with the
store left unchanged. -/
def requestCancel (st : JobStore) (jobId : String) : CancelResult × JobStore :=
  match List.lookup jobId st with
  | none => (CancelResult.notFound, st)
  | some j =>
      if isActive j.progress.status then
        (CancelResult.ok,
         st.map (fun kv => if kv.1 = jobId then (kv.1, { j with cancelRequested := true }) else kv))
      else (CancelResult.notCancellable, st)

/-- A full client progress query: the store serves the GET request and the
frontend getJobProgress (part_000) interprets the response. -/
def readJobProgress (st : JobStore) (jobId : String) :
    Except String (Option JobProgress) × JobStore :=
  ((getJobProgress (storeGet st jobId).1), (storeGet st jobId).2)

-- ── Per-block status display (part_003 lines 38..41, part_004 91..94) ──────

/-- A workflow block as the job views see it: `{ id?: string; type: string }`. -/
structure WorkflowBlockRef where
  id : Option String
  type : String
deriving DecidableEq

/-- `b.id ? (job.block_states[b.id] ?? 'pending') : 'pending'` — the block
status rendered by JobCard and JobDetailPage.  A JS empty-string id is
falsy, so it takes the `'pending'` arm. -/
def blockDisplayStatus (job : Job) (b : WorkflowBlockRef) : String :=
  match b.id with
  | some i =>
      if i = "" then "pending"
      else (List.lookup i job.block_states).getD "pending"
  | none => "pending"

-- ── Progress percentage (part_003 lines 32..34, part_004 86..88) ───────────

/-- `totalBlocks > 0 ? (completedBlocks / totalBlocks) * 100 : 0`,
with JS numbers modelled as rationals. -/
def progressPercent (job : Job) : ℚ :=
  if job.total_blocks > 0 then
    ((job.completed_blocks : ℚ) / (job.total_blocks : ℚ)) * 100
  else 0

-- ── Builder blocks (api/types Block union, WorkflowBuilderPage) ────────────

inductive FilterOp
  | contains
  | equals
  | not_equals
  | gt
  | lt
  | gte
  | lte
deriving DecidableEq, Repr

inductive FindEmailMode
  | professional
  | personal
deriving DecidableEq, Repr

/-- The per-type params of the Block union; the enrich_lead `struct`
record is embedded as its `Object.entries` list. -/
inductive BlockParams
  | read_csv (path : String)
  | filter (column : String) (operator : FilterOp) (value : String)
  | enrich_lead (struct : List (String × String)) (research_plan : Option String)
  | find_email (mode : FindEmailMode)
  | save_csv (path : String)
deriving DecidableEq, Repr

structure Block where
  id : Option String
  params : BlockParams
deriving DecidableEq, Repr

/-- The per-block body of validateBlocks (WorkflowBuilderPage lines
547..562; the copy at lines 23..38 is identical): the error message
recorded for one block, if any. -/
def blockError (block : Block) : Option String :=
  match block.params with
  | BlockParams.read_csv path =>
      if jsTrim path = "" then some "File path is required" else none
  | BlockParams.save_csv path =>
      if jsTrim path = "" then some "Output file path is required" else none
  | BlockParams.filter column _ value =>
      if jsTrim column = "" then some "Column name is required"
      else if jsTrim value = "" then some "Filter value is required"
      else none
  | BlockParams.enrich_lead struct _ =>
      if struct.length = 0 then some "At least one enrichment field is required"
      else if struct.any (fun kv => jsTrim kv.1 = "") then some "All field names must be non-empty"
      else none
  | BlockParams.find_email _ => none

/-- validateBlocks: `blocks.forEach((block, i) => ...)` filling
`errors : Record<number, string>`, embedded as the list of
(index, message) pairs it records. -/
def validateBlocks (blocks : List Block) : List (Nat × String) :=
  blocks.enum.filterMap (fun ib => (blockError ib.2).map (fun msg => (ib.1, msg)))

-- ── handleRun (WorkflowBuilderPage lines 863..889; 295..321 identical) ─────

inductive RunAction
  | refuseNameError
  | refuseValidationErrors
  | promptOverwrite (filename : String)
  | submitRun
deriving DecidableEq, Repr

/-- `b.type === 'save_csv'` -/
def isSaveCsv (b : Block) : Bool :=
  match b.params with
  | BlockParams.save_csv _ => true
  | _ => false

/-- `saveCsvBlock.params.path` for a save_csv block. -/
def saveCsvPath (b : Block) : String :=
  match b.params with
  | BlockParams.save_csv p => p
  | _ => ""

/-- The decision handleRun takes: refuse on a name error, refuse when
validateBlocks reports errors, prompt before overwriting an existing
output file, otherwise submit (save + create job). -/
def handleRun (nameError : Option String) (blocks : List Block) (outputs : List String) :
    RunAction :=
  match nameError with
  | some _ => RunAction.refuseNameError
  | none =>
      if validateBlocks blocks ≠ [] then RunAction.refuseValidationErrors
      else
        match blocks.find? isSaveCsv with
        | some b =>
            if jsTrim (saveCsvPath b) ≠ "" ∧ outputs.contains (jsTrim (saveCsvPath b)) then
              RunAction.promptOverwrite (jsTrim (saveCsvPath b))
            else RunAction.submitRun
        | none => RunAction.submitRun

-- ── Filter operator selects (C6) ───────────────────────────────────────────

/-- The (value, label) option pairs of the filter operator Select in the
WorkflowBuilderPage BlockEditor (lines 667..682). -/
def builderFilterOperatorOptions : List (String × String) :=
  [("contains", "Contains"),
   ("equals", "Equals"),
   ("not_equals", "Does not equal"),
   ("gt", "Greater than"),
   ("lt", "Less than"),
   ("gte", "Greater than or equal"),
   ("lte", "Less than or equal")]

/-- The (value, label) option pairs of the filter operator select in
BlockParamsForm (BlockCard.tsx source, lines 156..166). -/
def paramsFormFilterOperatorOptions : List (String × String) :=
  [("contains", "contains"),
   ("eq", "equals"),
   ("ne", "not equals")]

/-- The string value of each FilterOp member of the Block union type. -/
def filterOpValue : FilterOp → String
  | FilterOp.contains => "contains"
  | FilterOp.equals => "equals"
  | FilterOp.not_equals => "not_equals"
  | FilterOp.gt => "gt"
  | FilterOp.lt => "lt"
  | FilterOp.gte => "gte"
  | FilterOp.lte => "lte"

/-- The numeric-comparison operators (greater / less than, with or
without equality). -/
def isNumericComparisonOp : FilterOp → Bool
  | FilterOp.gt => true
  | FilterOp.lt => true
  | FilterOp.gte => true
  | FilterOp.lte => true
  | _ => false

-- ── reorderBlocks (WorkflowBuilderPage lines 903..909) ─────────────────────

/-- `if (fromIndex === toIndex) return;
const next = [...currentBlocks];
const [removed] = next.splice(fromIndex, 1);
next.splice(fromIndex < toIndex ? toIndex - 1 : toIndex, 0, removed);`
For an out-of-range fromIndex the JS code would splice out nothing and
insert `undefined`; that case is unrepresentable in a typed list and the
model leaves the list unchanged — all claims about reorderBlocks assume
fromIndex < length. -/
def reorderBlocks {α : Type} (blocks : List α) (fromIndex toIndex : Nat) : List α :=
  if fromIndex = toIndex then blocks
  else
    match blocks.get? fromIndex with
    | none => blocks
    | some removed =>
        (blocks.eraseIdx fromIndex).insertIdx
          (if fromIndex < toIndex then toIndex - 1 else toIndex) removed

-- ── Concrete samples used by witnesses and counterexamples ─────────────────

def sampleProgress : JobProgress :=
  { job_id := "job-1"
    status := JobStatus.completed
    current_block_index := 2
    total_blocks := 2
    blocks_completed := []
    error := none }

def sampleStore : JobStore :=
  [("job-1", { progress := sampleProgress, cancelRequested := false })]

def sampleJob : Job :=
  { id := "job-1"
    workflow_id := "wf-1"
    status := JobStatus.completed
    total_blocks := 2
    completed_blocks := 1
    current_block_id := none
    failed_block_id := none
    block_states := [("", "running")]
    created_at := "2026-01-01T00:00:00Z"
    started_at := none
    finished_at := none
    error_message := none }

-- ═══════════════════════════════════════════════════════════════════════════
-- Theorems
-- ═══════════════════════════════════════════════════════════════════════════

/-- Claim C2: a progress query for an unknown or otherwise failing job id
resolves to null (here: `Except.ok none`) whenever the server response is
not ok; it never throws across the read API (the result is always
`Except.ok`, given that an ok response from the read API carries a
parseable snapshot); and for a known job it returns the progress
snapshot. -/
theorem C2_progress_query_total (res : HttpResponse)
    (hjson : res.ok = true → ∃ p, res.json = Except.ok p) :
    (∃ v, getJobProgress res = Except.ok v)
    ∧ (res.ok = false → getJobProgress res = Except.ok none)
    ∧ (∀ p, res.ok = true → res.json = Except.ok p →
        getJobProgress res = Except.ok (some p)) := by
  refine ⟨?_, ?_, ?_⟩
  · cases hok : res.ok with
    | false => exact ⟨none, by simp [getJobProgress, hok]⟩
    | true =>
        obtain ⟨p, hp⟩ := hjson hok
        exact ⟨some p, by simp [getJobProgress, hok, hp, Except.map]⟩
  · intro hok
    simp [getJobProgress, hok]
  · intro p hok hp
    simp [getJobProgress, hok, hp, Except.map]

theorem C2_witness :
    getJobProgress { ok := false, json := Except.error "boom" } = Except.ok none := by
  exact (C2_progress_query_total { ok := false, json := Except.error "boom" }
    (fun h => nomatch h)).2.1 rfl

/-- Claim C3: the JobCard and JobDetailPage offer the Cancel action iff the
job status is pending or running; a terminal job shows Rerun instead of
Cancel (JobCard), and a cancellation request against a terminal job is
rejected as not-cancellable and leaves the store unchanged. -/
theorem C3_cancel_offered_iff_active : ∀ job : Job,
    ((jobCardCancelShown job = true) ↔
      (job.status = JobStatus.pending ∨ job.status = JobStatus.running))
    ∧ jobDetailCancelShown job = jobCardCancelShown job
    ∧ jobCardRerunShown job = !(jobCardCancelShown job)
    ∧ (∀ (st : JobStore) (jobId : String) (j : StoredJob),
        List.lookup jobId st = some j →
        isActive j.progress.status = false →
        requestCancel st jobId = (CancelResult.notCancellable, st)) := by
  intro job
  refine ⟨?_, rfl, rfl, ?_⟩
  · cases h : job.status <;> simp only [jobCardCancelShown, isActive, h] <;> decide
  · intro st jobId j hl hterm
    simp [requestCancel, hl, hterm]

theorem C3_witness :
    requestCancel sampleStore "job-1" = (CancelResult.notCancellable, sampleStore)
    ∧ jobCardCancelShown sampleJob = false := by
  refine ⟨?_, by decide⟩
  exact (C3_cancel_offered_iff_active sampleJob).2.2.2 sampleStore "job-1"
    { progress := sampleProgress, cancelRequested := false } rfl (by decide)

/-- Claim C7: a progress query is a pure read — it leaves the Job Store
unchanged, repeated queries against the resulting state return identical
results (hence byte-identical snapshots for a terminal job, whose record
no longer changes), and a known job id yields its snapshot. -/
theorem C7_progress_query_pure : ∀ (st : JobStore) (jobId : String),
    (readJobProgress st jobId).2 = st
    ∧ (readJobProgress ((readJobProgress st jobId).2) jobId).1 =
        (readJobProgress st jobId).1
    ∧ (∀ j, List.lookup jobId st = some j →
        (readJobProgress st jobId).1 = Except.ok (some j.progress)) := by
  intro st jobId
  have h2 : (readJobProgress st jobId).2 = st := by
    cases h : List.lookup jobId st <;> simp [readJobProgress, storeGet, h]
  refine ⟨h2, by rw [h2], ?_⟩
  intro j hj
  simp [readJobProgress, storeGet, hj, getJobProgress, Except.map]

theorem C7_witness :
    (readJobProgress sampleStore "job-1").1 = Except.ok (some sampleProgress) := by
  exact (C7_progress_query_pure sampleStore "job-1").2.2
    { progress := sampleProgress, cancelRequested := false } rfl

/-- Claim C9: the rendered progress fraction is `completed / total * 100`
only under the guard `total > 0` and is 0 otherwise (so the division
branch is never taken with a zero denominator), and whenever
`completed ≤ total` the percentage lies in [0, 100]. -/
theorem C9_progress_in_range : ∀ job : Job,
    (job.total_blocks = 0 → progressPercent job = 0)
    ∧ (0 < job.total_blocks →
        progressPercent job =
          ((job.completed_blocks : ℚ) / (job.total_blocks : ℚ)) * 100)
    ∧ (job.completed_blocks ≤ job.total_blocks →
        0 ≤ progressPercent job ∧ progressPercent job ≤ 100) := by
  intro job
  refine ⟨?_, ?_, ?_⟩
  · intro h
    simp [progressPercent, h]
  · intro h
    unfold progressPercent
    rw [if_pos h]
  · intro hle
    by_cases h : 0 < job.total_blocks
    · have hpos : (0 : ℚ) < (job.total_blocks : ℚ) := by exact_mod_cast h
      unfold progressPercent
      rw [if_pos h]
      constructor
      · positivity
      · have hd : (job.completed_blocks : ℚ) / (job.total_blocks : ℚ) ≤ 1 :=
          (div_le_one hpos).mpr (by exact_mod_cast hle)
        calc ((job.completed_blocks : ℚ) / (job.total_blocks : ℚ)) * 100
            ≤ 1 * 100 := mul_le_mul_of_nonneg_right hd (by norm_num)
          _ = 100 := by norm_num
    · unfold progressPercent
      rw [if_neg h]
      norm_num

theorem C9_witness :
    progressPercent sampleJob = ((1 : ℚ) / 2) * 100
    ∧ 0 ≤ progressPercent sampleJob ∧ progressPercent sampleJob ≤ 100 := by
  have h := C9_progress_in_range sampleJob
  refine ⟨?_, h.2.2 (by decide)⟩
  simpa [sampleJob] using h.2.1 (by decide)

/-- Claim C6, counterexample: the BlockParamsForm filter operator select
offers only the values contains, eq and ne — none of the numeric
comparison operators (gt, lt, gte, lte) can be selected there, contrary
to the claim that every operator kind, including numeric comparisons, can
be selected in the params form. -/
theorem C6_counterexample :
    paramsFormFilterOperatorOptions.map Prod.fst = ["contains", "eq", "ne"]
    ∧ "gt" ∉ paramsFormFilterOperatorOptions.map Prod.fst
    ∧ "lt" ∉ paramsFormFilterOperatorOptions.map Prod.fst
    ∧ "gte" ∉ paramsFormFilterOperatorOptions.map Prod.fst
    ∧ "lte" ∉ paramsFormFilterOperatorOptions.map Prod.fst := by
  decide

/-- Claim C6, amended: every filter operator of the Block union is
containment, equality, inequality or a numeric comparison, and all seven
— numeric comparisons included — are selectable in the WorkflowBuilderPage
block editor select; the BlockParamsForm select, however, offers only
containment, equality and inequality. -/
theorem C6_filter_operator_kinds :
    (∀ op : FilterOp,
      op = FilterOp.contains ∨ op = FilterOp.equals ∨ op = FilterOp.not_equals
        ∨ isNumericComparisonOp op = true)
    ∧ (∀ op : FilterOp, filterOpValue op ∈ builderFilterOperatorOptions.map Prod.fst)
    ∧ paramsFormFilterOperatorOptions.map Prod.fst = ["contains", "eq", "ne"]
    ∧ (∀ v ∈ paramsFormFilterOperatorOptions.map Prod.fst,
        v = "contains" ∨ v = "eq" ∨ v = "ne") := by
  refine ⟨?_, ?_, by decide, by decide⟩
  · intro op
    cases op <;> simp [isNumericComparisonOp]
  · intro op
    cases op <;> decide

theorem C6_witness :
    filterOpValue FilterOp.gt ∈ builderFilterOperatorOptions.map Prod.fst :=
  C6_filter_operator_kinds.2.1 FilterOp.gt

/-- Claim C8, counterexample: a block whose id is the empty string and
whose id has an entry in block_states is displayed as pending, not as its
block_states entry — the JS condition `b.id ?` treats the empty-string id
as absent. -/
theorem C8_counterexample :
    blockDisplayStatus sampleJob { id := some "", type := "filter" } = "pending"
    ∧ List.lookup "" sampleJob.block_states = some "running"
    ∧ ("pending" : String) ≠ "running" := by
  refine ⟨rfl, rfl, by decide⟩

/-- Claim C8, amended: the displayed status equals
`job.block_states[block.id]` when the block has a NON-EMPTY id and that id
has an entry in block_states; otherwise (no id, empty-string id — falsy in
JS — or no entry) it is displayed as pending rather than omitted or an
error. -/
theorem C8_block_display_status : ∀ (job : Job) (b : WorkflowBlockRef),
    (b.id = none → blockDisplayStatus job b = "pending")
    ∧ (b.id = some "" → blockDisplayStatus job b = "pending")
    ∧ (∀ i, b.id = some i → i ≠ "" →
        (∀ s, List.lookup i job.block_states = some s → blockDisplayStatus job b = s)
        ∧ (List.lookup i job.block_states = none →
            blockDisplayStatus job b = "pending")) := by
  intro job b
  refine ⟨?_, ?_, ?_⟩
  · intro h
    simp [blockDisplayStatus, h]
  · intro h
    simp [blockDisplayStatus, h]
  · intro i hi hne
    constructor
    · intro s hs
      simp [blockDisplayStatus, hi, hne, hs]
    · intro hs
      simp [blockDisplayStatus, hi, hne, hs]

theorem C8_witness :
    blockDisplayStatus { sampleJob with block_states := [("b1", "completed")] }
      { id := some "b1", type := "filter" } = "completed" := by
  exact ((C8_block_display_status { sampleJob with block_states := [("b1", "completed")] }
    { id := some "b1", type := "filter" }).2.2 "b1" rfl (by decide)).1 "completed" rfl

/-- Claim C5, counterexample: a pipeline whose only step is a read_csv
block with a missing (blank) required path param is NOT accepted at
submission — handleRun refuses the run with validation errors before any
job is created, contrary to the claim that the failure is raised only
when the step executes. -/
theorem C5_counterexample :
    handleRun none [{ id := none, params := BlockParams.read_csv "" }] []
      = RunAction.refuseValidationErrors
    ∧ handleRun none [{ id := none, params := BlockParams.read_csv "" }] []
      ≠ RunAction.submitRun := by
  refine ⟨rfl, by decide⟩

/-- Claim C5, amended: required-param failures that the builder validation
detects (blank read_csv or save_csv path, blank filter column or value,
empty or blank-keyed enrich_lead struct) are surfaced at submission time:
handleRun refuses the run and no job is created. A pipeline passing these
checks (and the name check and overwrite check) is submitted, leaving any
remaining param problems to execution time. -/
theorem C5_run_refused_on_validation : ∀ (blocks : List Block) (outputs : List String),
    (validateBlocks blocks ≠ [] →
      handleRun none blocks outputs = RunAction.refuseValidationErrors)
    ∧ (validateBlocks blocks = [] →
        blocks.find? isSaveCsv = none →
        handleRun none blocks outputs = RunAction.submitRun)
    ∧ (∀ b, validateBlocks blocks = [] →
        blocks.find? isSaveCsv = some b →
        ¬(jsTrim (saveCsvPath b) ≠ "" ∧ outputs.contains (jsTrim (saveCsvPath b))) →
        handleRun none blocks outputs = RunAction.submitRun)
    ∧ (∀ e, handleRun (some e) blocks outputs = RunAction.refuseNameError) := by
  intro blocks outputs
  refine ⟨?_, ?_, ?_, fun e => rfl⟩
  · intro h
    simp [handleRun, h]
  · intro hv hf
    simp [handleRun, hv, hf]
  · intro b hv hf hn
    simp only [handleRun, hv, hf]
    rw [if_neg (by simp [hv]), if_neg hn]

theorem C5_witness :
    handleRun none [{ id := none, params := BlockParams.find_email FindEmailMode.professional }] []
      = RunAction.submitRun := by
  exact (C5_run_refused_on_validation
    [{ id := none, params := BlockParams.find_email FindEmailMode.professional }] []).2.1
    rfl rfl

/-- Helper: blockError records a message for a block exactly when one of
the per-type conditions of validateBlocks holds. -/
theorem blockError_isSome_iff (b : Block) :
    (blockError b).isSome = true ↔
    ((∃ p, b.params = BlockParams.read_csv p ∧ jsTrim p = "")
      ∨ (∃ p, b.params = BlockParams.save_csv p ∧ jsTrim p = "")
      ∨ (∃ c op v, b.params = BlockParams.filter c op v ∧
          (jsTrim c = "" ∨ (jsTrim c ≠ "" ∧ jsTrim v = "")))
      ∨ (∃ s r, b.params = BlockParams.enrich_lead s r ∧
          (s = [] ∨ ∃ kv ∈ s, jsTrim kv.1 = ""))) := by
  obtain ⟨bid, params⟩ := b
  cases params with
  | read_csv p =>
      by_cases h : jsTrim p = "" <;>
        simp [blockError, h]
  | save_csv p =>
      by_cases h : jsTrim p = "" <;>
        simp [blockError, h]
  | filter c op v =>
      by_cases h1 : jsTrim c = ""
      · simp [blockError, h1]
        exact ⟨c, op, v, ⟨rfl, rfl, rfl⟩, Or.inl h1⟩
      · by_cases h2 : jsTrim v = ""
        · simp [blockError, h1, h2]
          exact ⟨c, op, v, ⟨rfl, rfl, rfl⟩, Or.inr ⟨h1, h2⟩⟩
        · simp [blockError, h1, h2]
  | enrich_lead s r =>
      by_cases h1 : s.length = 0
      · simp [blockError, h1, List.length_eq_zero.mp h1]
      · by_cases h2 : s.any (fun kv => jsTrim kv.1 = "") <;>
          simp_all [blockError, List.any_eq_true, List.length_eq_zero]
  | find_email m =>
      simp [blockError]

/-- Helper: validateBlocks records an error at index i exactly when the
block at index i has a blockError. -/
theorem mem_validateBlocks_iff (blocks : List Block) (i : Nat) :
    (∃ msg, (i, msg) ∈ validateBlocks blocks) ↔
    (∃ b, blocks.get? i = some b ∧ (blockError b).isSome = true) := by
  constructor
  · rintro ⟨msg, hmem⟩
    simp only [validateBlocks, List.mem_filterMap] at hmem
    obtain ⟨⟨j, b⟩, ha, hf⟩ := hmem
    simp only [Option.map_eq_some'] at hf
    obtain ⟨m, hm, heq⟩ := hf
    have hj : j = i := congrArg Prod.fst heq
    subst hj
    refine ⟨b, ?_, by simp [hm]⟩
    have := List.mk_mem_enum_iff_getElem?.mp ha
    simpa [List.get?_eq_getElem?] using this
  · rintro ⟨b, hb, hsome⟩
    obtain ⟨msg, hmsg⟩ := Option.isSome_iff_exists.mp hsome
    refine ⟨msg, ?_⟩
    simp only [validateBlocks, List.mem_filterMap]
    refine ⟨(i, b), ?_, by simp [hmsg]⟩
    refine List.mk_mem_enum_iff_getElem?.mpr ?_
    simpa [List.get?_eq_getElem?] using hb

/-- Claim C4: validateBlocks reports an error at index i iff block i is a
read_csv or save_csv with a blank (trimmed-empty) path, a filter with a
blank column or a non-blank column and blank value, or an enrich_lead
whose struct is empty or has a blank field name; a find_email block is
never reported and no other index is reported. -/
theorem C4_validateBlocks_iff : ∀ (blocks : List Block) (i : Nat),
    (∃ msg, (i, msg) ∈ validateBlocks blocks) ↔
    (∃ b, blocks.get? i = some b ∧
      ((∃ p, b.params = BlockParams.read_csv p ∧ jsTrim p = "")
        ∨ (∃ p, b.params = BlockParams.save_csv p ∧ jsTrim p = "")
        ∨ (∃ c op v, b.params = BlockParams.filter c op v ∧
            (jsTrim c = "" ∨ (jsTrim c ≠ "" ∧ jsTrim v = "")))
        ∨ (∃ s r, b.params = BlockParams.enrich_lead s r ∧
            (s = [] ∨ ∃ kv ∈ s, jsTrim kv.1 = "")))) := by
  intro blocks i
  rw [mem_validateBlocks_iff]
  constructor
  · rintro ⟨b, hb, hsome⟩
    exact ⟨b, hb, (blockError_isSome_iff b).mp hsome⟩
  · rintro ⟨b, hb, hcond⟩
    exact ⟨b, hb, (blockError_isSome_iff b).mpr hcond⟩

theorem C4_witness :
    ∃ msg, (0, msg) ∈ validateBlocks [{ id := none, params := BlockParams.read_csv "" }] :=
  (C4_validateBlocks_iff [{ id := none, params := BlockParams.read_csv "" }] 0).mpr
    ⟨{ id := none, params := BlockParams.read_csv "" }, rfl, Or.inl ⟨"", rfl, rfl⟩⟩

/-- Helper: the poll trace always ends at the result that decided the
current scheduling flag, and every earlier observation was active. -/
theorem pollRun_shape (stream : Nat → Option JobProgress) (n : Nat) :
    ∃ pre last, (pollRun stream n).observed = pre ++ [last]
      ∧ (pollRun stream n).scheduled = pollSchedulesNext last
      ∧ (∀ o ∈ pre, pollSchedulesNext o = true) := by
  induction n with
  | zero =>
      exact ⟨[], stream 0, rfl, rfl, by simp⟩
  | succ n ih =>
      obtain ⟨pre, last, ho, hs, hpre⟩ := ih
      by_cases h : (pollRun stream n).scheduled = true
      · refine ⟨pre ++ [last], stream (n + 1), ?_, ?_, ?_⟩
        · simp [pollRun, pollStep, h, ho]
        · simp [pollRun, pollStep, h]
        · intro o hmem
          rcases List.mem_append.mp hmem with h1 | h2
          · exact hpre o h1
          · have : o = last := by simpa using h2
            subst this
            rw [← hs]
            exact h
      · have hfalse : (pollRun stream n).scheduled = false := by
          simpa using h
        have hstep : pollRun stream (n + 1) = pollRun stream n := by
          show pollStep (pollRun stream n) (stream (n + 1)) = pollRun stream n
          simp [pollStep, hfalse]
        exact ⟨pre, last, by rw [hstep, ho], by rw [hstep]; exact hs, hpre⟩

/-- Helper: once no poll is scheduled the trace never changes again — no
further query runs and no later status is observed. -/
theorem pollRun_stops (stream : Nat → Option JobProgress) (n m : Nat)
    (hnm : n ≤ m) (hstop : (pollRun stream n).scheduled = false) :
    pollRun stream m = pollRun stream n := by
  induction m, hnm using Nat.le_induction with
  | base => rfl
  | succ m _ ih =>
      have : pollRun stream (m + 1) = pollStep (pollRun stream m) (stream (m + 1)) := rfl
      rw [this, ih]
      simp [pollStep, hstop]

/-- Claim C1: pending and running are the only statuses that keep a
polling client going. The App.tsx poll reschedules exactly when the last
observed result is a snapshot in status pending or running, every
observation before the last one was such a snapshot, and once a terminal
status (or a null result) is observed the trace is frozen: no further
poll is scheduled and no later status is ever observed. The JobsPage and
JobDetailPage refetch intervals likewise re-query exactly while a pending
or running job is observed. -/
theorem C1_polling_stops_on_terminal :
    (∀ (stream : Nat → Option JobProgress) (n : Nat),
      ∃ pre last, (pollRun stream n).observed = pre ++ [last]
        ∧ (pollRun stream n).scheduled = pollSchedulesNext last
        ∧ (∀ o ∈ pre, pollSchedulesNext o = true))
    ∧ (∀ (stream : Nat → Option JobProgress) (n m : Nat), n ≤ m →
        (pollRun stream n).scheduled = false →
        pollRun stream m = pollRun stream n)
    ∧ (∀ o : Option JobProgress, pollSchedulesNext o = true ↔
        ∃ p, o = some p ∧
          (p.status = JobStatus.pending ∨ p.status = JobStatus.running))
    ∧ (∀ jobs : List Job, jobsRefetchInterval (some jobs) = some 2000 ↔
        ∃ j ∈ jobs, (j.status = JobStatus.pending ∨ j.status = JobStatus.running))
    ∧ jobsRefetchInterval none = none
    ∧ (∀ job : Job, jobDetailRefetchInterval (some job) = some 2000 ↔
        (job.status = JobStatus.pending ∨ job.status = JobStatus.running))
    ∧ jobDetailRefetchInterval none = none := by
  refine ⟨pollRun_shape, pollRun_stops, ?_, ?_, rfl, ?_, rfl⟩
  · intro o
    cases o with
    | none => simp [pollSchedulesNext]
    | some p =>
        simp only [pollSchedulesNext, Bool.or_eq_true, beq_iff_eq]
        constructor
        · rintro (h | h)
          · exact ⟨p, rfl, Or.inr h⟩
          · exact ⟨p, rfl, Or.inl h⟩
        · rintro ⟨q, hq, h⟩
          cases hq
          exact h.symm
  · intro jobs
    by_cases hc : jobs.any (fun j => isActive j.status) = true
    · simp only [jobsRefetchInterval, if_pos hc]
      simp only [List.any_eq_true, isActive, Bool.or_eq_true, beq_iff_eq] at hc
      obtain ⟨j, hj, h⟩ := hc
      exact ⟨fun _ => ⟨j, hj, h.symm⟩, fun _ => trivial⟩
    · simp only [jobsRefetchInterval, if_neg hc]
      constructor
      · intro h
        exact absurd h (by simp)
      · rintro ⟨j, hj, h⟩
        exfalso
        apply hc
        rw [List.any_eq_true]
        refine ⟨j, hj, ?_⟩
        simp only [isActive, Bool.or_eq_true, beq_iff_eq]
        exact h.symm
  · intro job
    by_cases hc : isActive job.status = true
    · simp only [jobDetailRefetchInterval, if_pos hc]
      simp only [isActive, Bool.or_eq_true, beq_iff_eq] at hc
      exact ⟨fun _ => hc.symm, fun _ => trivial⟩
    · simp only [jobDetailRefetchInterval, if_neg hc]
      constructor
      · intro h
        exact absurd h (by simp)
      · intro h
        exfalso
        apply hc
        simp only [isActive, Bool.or_eq_true, beq_iff_eq]
        exact h.symm

/-- A concrete fetch-result stream: one running snapshot, then terminal
completed snapshots. -/
def sampleStream : Nat → Option JobProgress :=
  fun n => if n = 0 then some { sampleProgress with status := JobStatus.running }
           else some sampleProgress

theorem C1_witness :
    pollRun sampleStream 3 = pollRun sampleStream 1
    ∧ pollSchedulesNext (some sampleProgress) = false := by
  refine ⟨?_, by decide⟩
  exact C1_polling_stops_on_terminal.2.1 sampleStream 1 3 (by decide) (by decide)

/-- Helper: inserting at a position within bounds is a permutation of
consing in front. -/
theorem insertIdx_perm_cons {α : Type} (x : α) :
    ∀ (pos : Nat) (m : List α), pos ≤ m.length →
      List.Perm (List.insertIdx pos x m) (x :: m) := by
  intro pos
  induction pos with
  | zero =>
      intro m _
      simp [List.insertIdx_zero]
  | succ p ih =>
      intro m hm
      cases m with
      | nil => simp at hm
      | cons b tl =>
          rw [List.insertIdx_succ_cons]
          have h1 : List.Perm (List.insertIdx p x tl) (x :: tl) :=
            ih tl (Nat.le_of_succ_le_succ hm)
          exact (h1.cons b).trans (List.Perm.swap x b tl)

/-- Helper: a list is a permutation of its element at index f consed onto
the list with index f erased. -/
theorem perm_cons_eraseIdx_of_get {α : Type} :
    ∀ (l : List α) (f : Nat) (x : α), l.get? f = some x →
      List.Perm l (x :: l.eraseIdx f) := by
  intro l
  induction l with
  | nil =>
      intro f x h
      simp at h
  | cons a tl ih =>
      intro f x h
      cases f with
      | zero =>
          have : a = x := by simpa using h
          subst this
          simp [List.eraseIdx]
      | succ g =>
          have h2 : tl.get? g = some x := by simpa using h
          have h3 := (ih g x h2).cons a
          have h4 : List.eraseIdx (a :: tl) (g + 1) = a :: tl.eraseIdx g := rfl
          rw [h4]
          exact h3.trans (List.Perm.swap x a (tl.eraseIdx g))

/-- Claim C10: for fromIndex < n and toIndex ≤ n, reorderBlocks preserves
length and multiset contents, keeps the relative order of the unmoved
blocks (erasing the moved block from the result gives the original list
without it), places the moved block at toIndex - 1 when
fromIndex < toIndex and at toIndex otherwise, and is the identity when
fromIndex = toIndex. -/
theorem C10_reorderBlocks_spec (α : Type) (l : List α) (f t : Nat)
    (hf : f < l.length) (ht : t ≤ l.length) :
    (reorderBlocks l f t).length = l.length
    ∧ List.Perm (reorderBlocks l f t) l
    ∧ (f = t → reorderBlocks l f t = l)
    ∧ (reorderBlocks l f t).get? (if f < t then t - 1 else t) = l.get? f
    ∧ (reorderBlocks l f t).eraseIdx (if f < t then t - 1 else t) = l.eraseIdx f := by
  by_cases hft : f = t
  · subst hft
    have hr : reorderBlocks l f f = l := by simp [reorderBlocks]
    rw [hr]
    refine ⟨rfl, List.Perm.refl l, fun _ => rfl, ?_, ?_⟩
    · rw [if_neg (lt_irrefl f)]
    · rw [if_neg (lt_irrefl f)]
  · obtain ⟨x, hx⟩ : ∃ x, l.get? f = some x := by
      rw [List.get?_eq_getElem?]
      exact ⟨l[f], List.getElem?_eq_getElem hf⟩
    have hlen_m : (l.eraseIdx f).length = l.length - 1 := by
      rw [List.length_eraseIdx_of_lt hf]
    have hpos_le : (if f < t then t - 1 else t) ≤ (l.eraseIdx f).length := by
      rw [hlen_m]
      by_cases hlt : f < t
      · rw [if_pos hlt]; omega
      · rw [if_neg hlt]; omega
    have hx2 : l[f]? = some x := by
      rw [← List.get?_eq_getElem?]
      exact hx
    have hre : reorderBlocks l f t =
        (l.eraseIdx f).insertIdx (if f < t then t - 1 else t) x := by
      simp [reorderBlocks, hft, hx2]
    have hperm1 := insertIdx_perm_cons x (if f < t then t - 1 else t) (l.eraseIdx f) hpos_le
    have hperm2 := perm_cons_eraseIdx_of_get l f x hx
    have hlen : (reorderBlocks l f t).length = l.length := by
      rw [hre, List.length_insertIdx _ _ hpos_le, hlen_m]
      omega
    refine ⟨hlen, ?_, fun h => absurd h hft, ?_, ?_⟩
    · rw [hre]
      exact hperm1.trans hperm2.symm
    · rw [hx, List.get?_eq_getElem?, hre]
      have hpos_lt : (if f < t then t - 1 else t) <
          (List.insertIdx (if f < t then t - 1 else t) x (l.eraseIdx f)).length := by
        rw [List.length_insertIdx _ _ hpos_le]
        exact Nat.lt_succ_of_le hpos_le
      rw [List.getElem?_eq_getElem hpos_lt]
      exact congrArg some (List.getElem_insertIdx_self (l.eraseIdx f) x _ hpos_le)
    · rw [hre, List.eraseIdx_insertIdx]

theorem C10_witness :
    List.Perm (reorderBlocks [1, 2, 3] 0 2) [1, 2, 3]
    ∧ (reorderBlocks [1, 2, 3] 0 2).get? 1 = some 1
    ∧ reorderBlocks [1, 2, 3] 0 2 = [2, 1, 3] := by
  have h := C10_reorderBlocks_spec Nat [1, 2, 3] 0 2 (by decide) (by decide)
  refine ⟨h.2.1, ?_, by decide⟩
  have hg := h.2.2.2.1
  simpa using hg
